import Mathlib

/-!
# Verification of the shapefile-to-H3 conversion pipeline

A shallow embedding of `src/shapefile_to_h3_converter.py` and `src/main.py`.

Conventions of the embedding:
* Python floats are modelled as exact rationals (`ℚ`).
* Fallible Python code (pydantic validation, shapely constructors, the
  pipeline constructor) is modelled with `Except Err`.
* The external libraries the code delegates to (shapely / GEOS, h3,
  pydantic's validation core) are not in the repository; where their
  behaviour decides a claim they are modelled from the specification's
  description of them, marked `Modelled from the spec:` in doc comments.
* Python object identity — which matters because `model_copy()` makes a
  shallow copy — is modelled with an explicit store of `Geometry` objects
  indexed by natural-number references.
-/

/-- A GeoJSON coordinate: the `root` list of the pydantic `Coordinate`
`RootModel` (a list of floats, modelled as rationals). -/
abbrev Coordinate := List ℚ

/-- A planar point, the unit shapely works on. -/
abbrev Point := ℚ × ℚ

/-- Conversion of a coordinate's root list to a shapely point, as done by
the `coords.append(coordinate.root)` / `LineString(coords)` path of
`segmentize_geojson_data` (validated coordinates have exactly two entries;
out-of-range indices default to 0 to keep the function total). -/
def toPoint (c : Coordinate) : Point := (c.getD 0 0, c.getD 1 0)

/-- Conversion back, as done by `Coordinate(root=list(point))` in
`segmentize_linestring`. -/
def ofPoint (p : Point) : Coordinate := [p.1, p.2]

/-- Squared Euclidean distance between two points.  Distances are carried
squared throughout so that everything stays inside `ℚ`; `dist2 a b ≤ m ^ 2`
is equivalent to the Euclidean distance between `a` and `b` being at most
`m` for `m ≥ 0`. -/
def dist2 (p q : Point) : ℚ := (q.1 - p.1) ^ 2 + (q.2 - p.2) ^ 2

/-- Linear search for the least `n'` at or above `n` with `q ≤ n' ^ 2`,
with explicit fuel so that the kernel can evaluate it. -/
def ceilSqrtAux (q : ℚ) : ℕ → ℕ → ℕ
  | n, 0 => n
  | n, Nat.succ fuel => if q ≤ (n : ℚ) ^ 2 then n else ceilSqrtAux q (n + 1) fuel

/-- `ceilSqrt q` is `⌈√q⌉` for a rational `q`: the least natural `n` with
`q ≤ n ^ 2` (and `0` for nonpositive `q`).  Used to express
`⌈L / m⌉ = ⌈√(L² / m²)⌉` without leaving `ℚ`. -/
def ceilSqrt (q : ℚ) : ℕ := ceilSqrtAux q 0 ⌈q⌉.toNat

/-- The `j/n`-fraction point along the segment from `p` to `q`. -/
def chord (p q : Point) (n : ℕ) (j : ℕ) : Point :=
  (p.1 + (j : ℚ) / (n : ℚ) * (q.1 - p.1), p.2 + (j : ℚ) / (n : ℚ) * (q.2 - p.2))

/-- Number of equal sub-segments a segment from `p` to `q` is cut into:
`⌈L / max_segment_length⌉`, at least 1 (a zero-length segment keeps its
duplicate endpoint).  Expressed via squared lengths:
`⌈L / m⌉ = ⌈√(dist2 p q / m²)⌉`. -/
def numSegments (p q : Point) (max_segment_length : ℚ) : ℕ :=
  max 1 (ceilSqrt (dist2 p q / max_segment_length ^ 2))

/-- The points a single original segment `p→q` contributes after `p`:
the `numSegments`-equal subdivision's interior points followed by `q`
itself. -/
def segmentPoints (p q : Point) (max_segment_length : ℚ) : List Point :=
  let n := numSegments p q max_segment_length
  ((List.range (n - 1)).map fun j => chord p q n (j + 1)) ++ [q]

/-- Tail of the resampled line: points contributed after the first vertex,
walking the remaining vertices segment by segment. -/
def segTail (max_segment_length : ℚ) : Point → List Point → List Point
  | _, [] => []
  | p, q :: rest => segmentPoints p q max_segment_length ++ segTail max_segment_length q rest

/-- Modelled from the spec: the resampling performed by the external
`GeoSeries.segmentize` call in `segmentize_linestring` (shapely/GEOS
densify, not part of this repository).  Per §4.1: "a straight linear
resampling per original segment: for a segment of length `L`, it is
subdivided into `ceil(L / max_segment_length)` equal sub-segments";
original vertices are preserved; a zero-length segment inserts nothing and
retains the duplicate. -/
def segmentize (ps : List Point) (max_segment_length : ℚ) : List Point :=
  match ps with
  | [] => []
  | p :: rest => p :: segTail max_segment_length p rest

/-- Error conditions surfaced by the modelled Python code
(pydantic `ValidationError`, shapely `ValueError`s). -/
inductive Err where
  /-- pydantic schema validation failure. -/
  | validationError : Err
  /-- shapely/GEOS rejection of a non-positive tolerance. -/
  | invalidArgument : Err
  /-- shapely rejection of a malformed geometry. -/
  | invalidGeometry : Err
deriving DecidableEq, Repr

/-- A shapely `LineString`'s coordinate sequence. -/
structure LineString where
  points : List Point
deriving DecidableEq, Repr

/-- Modelled from the spec: the external shapely `LineString` constructor
(not part of this repository), which accepts an empty or ≥2-point
sequence and rejects a single point as a degenerate geometry. -/
def mkLineString (ps : List Point) : Except Err LineString :=
  if ps.length = 1 then .error .invalidGeometry else .ok ⟨ps⟩

/-- `ShapefileToH3Converter.segmentize_linestring`: wraps the external
resampler; per §4.1 a non-positive `max_segment_length` fails with an
InvalidArgument condition (the external library's rejection, modelled
from the spec), otherwise the resampled points are re-wrapped as
coordinates.  The Python default for `max_segment_length` is `0.001`. -/
def segmentize_linestring (linestring : LineString) (max_segment_length : ℚ) :
    Except Err (List Coordinate) :=
  if max_segment_length ≤ 0 then .error .invalidArgument
  else .ok ((segmentize linestring.points max_segment_length).map ofPoint)

/-- `PropertyClass`: the road-class enum. -/
inductive PropertyClass where
  | principal_road : PropertyClass
  | dual_carriageway : PropertyClass
deriving DecidableEq, Repr

/-- `FeatureGeometryType`: the supported geometry types (only
`LineString`). -/
inductive FeatureGeometryType where
  | LineString : FeatureGeometryType
deriving DecidableEq, Repr

/-- `Properties`: the per-feature property bag. -/
structure Properties where
  id_t1 : ℚ
  road_name : String
  class_ : Option PropertyClass
  nrn : Option String
deriving DecidableEq, Repr

/-- `Geometry`: a GeoJSON geometry — a type tag and a coordinate list. -/
structure Geometry where
  type : FeatureGeometryType
  coordinates : List Coordinate
deriving DecidableEq, Repr

/-- The store of live `Geometry` objects: Python object identity made
explicit.  A `Feature` holds a reference (index) into the store; two
models holding the same reference alias the same geometry, which is what
`model_copy()`'s shallow copy produces. -/
abbrev Store := List Geometry

/-- Dereference a geometry (total: a dangling reference yields an empty
geometry, which never arises for well-formed inputs). -/
def getGeom (st : Store) (r : ℕ) : Geometry :=
  st.getD r ⟨FeatureGeometryType.LineString, []⟩

/-- `feature.geometry.coordinates = …`: in-place rebinding of one shared
geometry's coordinate list. -/
def setGeomCoords (st : Store) (r : ℕ) (cs : List Coordinate) : Store :=
  st.set r { getGeom st r with coordinates := cs }

/-- `Feature`: id, type tag, properties, and a reference to its geometry
object. -/
structure Feature where
  id : String
  type : String
  properties : Properties
  geomRef : ℕ
deriving DecidableEq, Repr

/-- `CrsProperties`. -/
structure CrsProperties where
  name : String
deriving DecidableEq, Repr

/-- `Crs`: coordinate reference system tag. -/
structure Crs where
  type : String
  properties : CrsProperties
deriving DecidableEq, Repr

/-- `GeoJsonModel`: the feature collection. -/
structure GeoJsonModel where
  type : String
  features : List Feature
  crs : Crs
deriving DecidableEq, Repr

/-- The geometry contents of a model as seen through the store: one
coordinate list per feature, in feature order.  This is what
`model_dump_json` serializes (restricted to the geometry part, the only
part segmentization can touch). -/
def viewCoords (st : Store) (data : GeoJsonModel) : List (List Coordinate) :=
  data.features.map fun f => (getGeom st f.geomRef).coordinates

/-- `Coordinate` construction as pydantic actually validates it: the
`root` list must have exactly two entries (`min_length=2, max_length=2`).
The `min=0, max=180` keywords in the source are not pydantic validators —
pydantic `Field` has no `min`/`max` parameters; extra keywords are stored
as schema metadata and enforce nothing — so no bounds check happens. -/
def mkCoordinate (root : List ℚ) : Except Err Coordinate :=
  if root.length = 2 then .ok root else .error .validationError

/-- The `Coordinate` constructor as the spec describes it (for comparison
with `mkCoordinate`): both components must lie within the declared bound
`[0, 180]`. -/
def mkCoordinateSpec (root : List ℚ) : Except Err Coordinate :=
  if root.length = 2 ∧ ∀ q ∈ root, 0 ≤ q ∧ q ≤ 180 then .ok root
  else .error .validationError

/-- `InputParams`: the configuration record.  Note there is no
`max_segment_length` field — the segment length is not part of the
configuration surface. -/
structure InputParams where
  shapefile_filepath : String
  output_filepath_geojson : String
  output_filepath_geojson_segmentized : String
  h3_resolution : ℤ
  output_filepath_h3_hexagons : String
deriving DecidableEq, Repr

/-- Pydantic validation of `InputParams` at construction: every path has
`min_length=1` and the resolution satisfies `ge=0, le=15`.  Pure — no
file I/O happens here. -/
def mkInputParams (p : InputParams) : Except Err InputParams :=
  if 1 ≤ p.shapefile_filepath.length ∧
     1 ≤ p.output_filepath_geojson.length ∧
     1 ≤ p.output_filepath_geojson_segmentized.length ∧
     1 ≤ p.output_filepath_h3_hexagons.length ∧
     0 ≤ p.h3_resolution ∧ p.h3_resolution ≤ 15 then .ok p
  else .error .validationError

/-- The per-feature loop of `segmentize_geojson_data`: for each
`LineString` feature, build a shapely `LineString` from its coordinates
and rebind the shared geometry's coordinate list to the resampled points
(Python default `max_segment_length = 0.001`). -/
def segFeatures (st : Store) : List Feature → Except Err Store
  | [] => .ok st
  | f :: fs =>
    let g := getGeom st f.geomRef
    if g.type = FeatureGeometryType.LineString then
      match mkLineString (g.coordinates.map toPoint) with
      | .error e => .error e
      | .ok linestring =>
        match segmentize_linestring linestring (1 / 1000) with
        | .error e => .error e
        | .ok newCoords => segFeatures (setGeomCoords st f.geomRef newCoords) fs
    else segFeatures st fs

/-- `ShapefileToH3Converter.segmentize_geojson_data`.  `data.model_copy()`
is pydantic's SHALLOW copy: the copy shares the features list and the
`Geometry` objects with the input, so in the store model the "copy" is
the same model value holding the same geometry references, and the
per-feature rebinding updates the shared store. -/
def segmentize_geojson_data (st : Store) (data : GeoJsonModel) :
    Except Err (Store × GeoJsonModel) :=
  (segFeatures st data.features).map fun st' => (st', data)

/-- `ShapefileToH3Converter._extract_coordinates`: flatten every feature's
geometry coordinates, feature order then point order. -/
def extract_coordinates (st : Store) (data : GeoJsonModel) : List Coordinate :=
  (data.features.map fun f => (getGeom st f.geomRef).coordinates).flatten

/-- The external h3 library's interface, abstract: a cell resolver and a
grid-ring function.  The code never inspects cell values, so all claims
about the mapper hold for every implementation. -/
structure H3Lib (Cell : Type) where
  latlng_to_cell : ℚ → ℚ → ℤ → Cell
  grid_ring : Cell → ℕ → List Cell

/-- The accumulation loop of `_coordinates_to_h3_hexagons`: for each
coordinate append its cell (`h3.latlng_to_cell(root[1], root[0], res)`)
and then extend with the cell's 1-ring (`h3.grid_ring(cell, 1)`). -/
def h3Accumulate {Cell : Type} (lib : H3Lib Cell)
    (coordinates : List Coordinate) (resolution : ℤ) : List Cell :=
  coordinates.flatMap fun c =>
    let cell := lib.latlng_to_cell (c.getD 1 0) (c.getD 0 0) resolution
    cell :: lib.grid_ring cell 1

/-- `ShapefileToH3Converter._coordinates_to_h3_hexagons`: the accumulated
cells deduplicated (`list(set(hexagons))`), in the canonical first-seen
order.  The Python `set` iteration order is arbitrary; `IsH3Run` below
characterizes every list the Python code can return. -/
def coordinates_to_h3_hexagons {Cell : Type} [DecidableEq Cell] (lib : H3Lib Cell)
    (coordinates : List Coordinate) (resolution : ℤ) : List Cell :=
  (h3Accumulate lib coordinates resolution).dedup

/-- `out` is a possible return value of the Python
`_coordinates_to_h3_hexagons` on these inputs: `list(set(hexagons))`
lists each accumulated cell exactly once, in an order the `set` is free
to choose — i.e. `out` is a permutation of the canonical deduplication. -/
def IsH3Run {Cell : Type} [DecidableEq Cell] (lib : H3Lib Cell)
    (coordinates : List Coordinate) (resolution : ℤ) (out : List Cell) : Prop :=
  out.Perm (coordinates_to_h3_hexagons lib coordinates resolution)

/-- A file-system access performed by the pipeline. -/
inductive Event where
  | readFile (path : String) : Event
  | writeFile (path : String) : Event
deriving DecidableEq, Repr

/-- The state `ShapefileToH3Converter.__init__` leaves behind, plus the
contents written to the two GeoJSON output files (modelled by their
geometry contents, the only part segmentization can touch). -/
structure InitOutcome (Cell : Type) where
  coordinates : List Coordinate
  raw_geojson_file : List (List Coordinate)
  coordinates_segmentized : List Coordinate
  segmentized_geojson_file : List (List Coordinate)
  h3_hexagons : List Cell
  finalStore : Store
deriving DecidableEq, Repr

/-- `ShapefileToH3Converter.__init__` after the shapefile read has
produced `(st, data)`: extract the raw coordinates, write the raw
GeoJSON, segmentize (which can fail on a degenerate geometry), extract
the segmentized coordinates, write the segmentized GeoJSON, and map the
segmentized coordinates to cells.  The event list records file I/O in
program order; an error carries the I/O performed before the failure. -/
def converterInit {Cell : Type} [DecidableEq Cell] (lib : H3Lib Cell)
    (input_params : InputParams) (st : Store) (data : GeoJsonModel) :
    Except (Err × List Event) (List Event × InitOutcome Cell) :=
  let evRead := [Event.readFile input_params.shapefile_filepath]
  let coords := extract_coordinates st data
  let rawFile := viewCoords st data
  let evRaw := evRead ++ [Event.writeFile input_params.output_filepath_geojson]
  match segmentize_geojson_data st data with
  | .error e => .error (e, evRaw)
  | .ok (st', dcopy) =>
    let coordsSeg := extract_coordinates st' dcopy
    let segFile := viewCoords st' dcopy
    let evSeg := evRaw ++ [Event.writeFile input_params.output_filepath_geojson_segmentized]
    let hexagons := coordinates_to_h3_hexagons lib coordsSeg input_params.h3_resolution
    .ok (evSeg, { coordinates := coords, raw_geojson_file := rawFile,
                  coordinates_segmentized := coordsSeg,
                  segmentized_geojson_file := segFile,
                  h3_hexagons := hexagons, finalStore := st' })

/-- The pipeline entry (`main.py`): construct-and-validate `InputParams`
first — no I/O — then run the converter's constructor, which performs all
file I/O.  An error carries the I/O events attempted before the
failure. -/
def runPipeline {Cell : Type} [DecidableEq Cell] (lib : H3Lib Cell)
    (raw : InputParams) (st : Store) (data : GeoJsonModel) :
    Except (Err × List Event) (List Event × InitOutcome Cell) :=
  match mkInputParams raw with
  | .error e => .error (e, [])
  | .ok input_params => converterInit lib input_params st data

/-! ## Concrete fixtures

Small concrete instantiations used to exhibit behaviour at specific
inputs: an h3 implementation over `ℕ`, the `main.py` parameter record,
and feature collections with a two-point line (the spec §8 example
scenario), a degenerate one-point line, and no features at all. -/

/-- A concrete h3 implementation over `ℕ` cells: every coordinate maps to
cell `0` and every 1-ring is the single cell one above. -/
def natH3 : H3Lib ℕ where
  latlng_to_cell := fun _ _ _ => 0
  grid_ring := fun cell _ => [cell + 1]

/-- The parameter record `main.py` constructs. -/
def exampleParams : InputParams where
  shapefile_filepath := "data_in/National Highways.shp"
  output_filepath_geojson := "data_out/highways.geojson"
  output_filepath_geojson_segmentized := "data_out/highways_segmentized.geojson"
  h3_resolution := 8
  output_filepath_h3_hexagons := "data_out/h3_hexagons.csv"

/-- `exampleParams` with an out-of-range resolution. -/
def badParams : InputParams := { exampleParams with h3_resolution := 99 }

/-- A property bag for the fixtures. -/
def exampleProps : Properties where
  id_t1 := 1
  road_name := "A1"
  class_ := some PropertyClass.principal_road
  nrn := none

/-- A coordinate reference system tag for the fixtures. -/
def exampleCrs : Crs := ⟨"name", ⟨"urn:ogc:def:crs:OGC:1.3:CRS84"⟩⟩

/-- A feature whose geometry is object `0` of the store. -/
def exampleFeature : Feature := ⟨"0", "Feature", exampleProps, 0⟩

/-- Store holding one two-point line: the spec §8 example, from
`(0, 0)` to `(0.003, 0)`. -/
def exampleStore : Store :=
  [⟨FeatureGeometryType.LineString, [[0, 0], [3 / 1000, 0]]⟩]

/-- The feature collection over `exampleStore`. -/
def exampleData : GeoJsonModel :=
  ⟨"FeatureCollection", [exampleFeature], exampleCrs⟩

/-- `exampleStore` after segmentization at the default `0.001`:
the four points of the spec §8 example. -/
def segStore : Store :=
  [⟨FeatureGeometryType.LineString,
    [[0, 0], [1 / 1000, 0], [2 / 1000, 0], [3 / 1000, 0]]⟩]

/-- Store holding one degenerate one-point line. -/
def onePointStore : Store := [⟨FeatureGeometryType.LineString, [[5, 5]]⟩]

/-- The feature collection over `onePointStore`. -/
def onePointData : GeoJsonModel :=
  ⟨"FeatureCollection", [exampleFeature], exampleCrs⟩

/-- A feature collection with no features. -/
def emptyData : GeoJsonModel := ⟨"FeatureCollection", [], exampleCrs⟩

/-! ## Properties of `ceilSqrt` -/

theorem ceilSqrtAux_le_add (q : ℚ) (n fuel : ℕ) : ceilSqrtAux q n fuel ≤ n + fuel := by
  induction fuel generalizing n with
  | zero => simp [ceilSqrtAux]
  | succ fuel ih =>
    rw [ceilSqrtAux]
    split
    · omega
    · have := ih (n + 1)
      omega

theorem le_sq_ceilSqrtAux (q : ℚ) (n fuel : ℕ) (h : q ≤ ((n + fuel : ℕ) : ℚ) ^ 2) :
    q ≤ ((ceilSqrtAux q n fuel : ℕ) : ℚ) ^ 2 := by
  induction fuel generalizing n with
  | zero => simpa [ceilSqrtAux] using h
  | succ fuel ih =>
    rw [ceilSqrtAux]
    split
    · assumption
    · exact ih (n + 1) (by convert h using 3; omega)

theorem ceilSqrtAux_le (q : ℚ) (k : ℕ) :
    ∀ fuel n, n ≤ k → q ≤ ((k : ℕ) : ℚ) ^ 2 → k ≤ n + fuel → ceilSqrtAux q n fuel ≤ k := by
  intro fuel
  induction fuel with
  | zero => intro n hn _ _; simpa [ceilSqrtAux] using hn
  | succ fuel ih =>
    intro n hn hk hfuel
    rw [ceilSqrtAux]
    split
    · exact hn
    · rename_i hlt
      have hne : n ≠ k := by
        rintro rfl
        exact hlt hk
      exact ih (n + 1) (by omega) hk (by omega)

theorem le_sq_ceilSqrt (q : ℚ) : q ≤ ((ceilSqrt q : ℕ) : ℚ) ^ 2 := by
  rw [ceilSqrt]
  apply le_sq_ceilSqrtAux
  rcases le_or_lt q 0 with h | h
  · calc q ≤ 0 := h
      _ ≤ ((0 + ⌈q⌉.toNat : ℕ) : ℚ) ^ 2 := by positivity
  · have hc : (0 : ℤ) ≤ ⌈q⌉ := by positivity
    have h1 : q ≤ (⌈q⌉.toNat : ℚ) := by
      calc q ≤ (⌈q⌉ : ℚ) := Int.le_ceil q
        _ = ((⌈q⌉.toNat : ℤ) : ℚ) := by rw [Int.toNat_of_nonneg hc]
        _ = (⌈q⌉.toNat : ℚ) := by push_cast; ring
    have h2 : (1 : ℚ) ≤ (⌈q⌉.toNat : ℚ) := by
      have : (1 : ℤ) ≤ ⌈q⌉ := by exact_mod_cast Int.ceil_pos.mpr h
      have : (1 : ℕ) ≤ ⌈q⌉.toNat := by omega
      exact_mod_cast this
    calc q ≤ (⌈q⌉.toNat : ℚ) := h1
      _ = (⌈q⌉.toNat : ℚ) * 1 := by ring
      _ ≤ (⌈q⌉.toNat : ℚ) * (⌈q⌉.toNat : ℚ) := by
          apply mul_le_mul_of_nonneg_left h2 (by positivity)
      _ = ((0 + ⌈q⌉.toNat : ℕ) : ℚ) ^ 2 := by push_cast; ring

theorem ceilSqrt_le (q : ℚ) (k : ℕ) (hk : q ≤ (k : ℚ) ^ 2) : ceilSqrt q ≤ k := by
  rw [ceilSqrt]
  rcases le_or_lt k ⌈q⌉.toNat with h | h
  · exact ceilSqrtAux_le q k _ 0 (Nat.zero_le k) hk (by omega)
  · calc ceilSqrtAux q 0 ⌈q⌉.toNat ≤ 0 + ⌈q⌉.toNat := ceilSqrtAux_le_add q 0 _
      _ ≤ k := by omega

theorem one_le_ceilSqrt (q : ℚ) (hq : 0 < q) : 1 ≤ ceilSqrt q := by
  by_contra h
  have h0 : ceilSqrt q = 0 := by omega
  have := le_sq_ceilSqrt q
  rw [h0] at this
  norm_num at this
  exact absurd (lt_of_lt_of_le hq this) (lt_irrefl 0)

theorem ceilSqrt_eq_succ (q : ℚ) (k : ℕ) (h1 : q ≤ ((k : ℚ) + 1) ^ 2)
    (h2 : (k : ℚ) ^ 2 < q) : ceilSqrt q = k + 1 := by
  have hle : ceilSqrt q ≤ k + 1 := by
    apply ceilSqrt_le
    push_cast
    exact h1
  have hgt : k < ceilSqrt q := by
    by_contra h
    push_neg at h
    have hmono : ((ceilSqrt q : ℕ) : ℚ) ^ 2 ≤ (k : ℚ) ^ 2 := by
      have : ((ceilSqrt q : ℕ) : ℚ) ≤ (k : ℚ) := by exact_mod_cast h
      have h0 : (0 : ℚ) ≤ ((ceilSqrt q : ℕ) : ℚ) := by positivity
      nlinarith
    exact absurd (lt_of_lt_of_le (lt_of_le_of_lt (le_sq_ceilSqrt q) (lt_of_le_of_lt hmono h2)) (le_refl q)) (lt_irrefl q)
  omega


/-! ## Properties of the resampler -/

theorem dist2_nonneg (p q : Point) : 0 ≤ dist2 p q := by
  unfold dist2; positivity

theorem one_le_numSegments (p q : Point) (m : ℚ) : 1 ≤ numSegments p q m :=
  le_max_left 1 _

theorem numSegments_pos_eq (p q : Point) (m : ℚ) (hm : 0 < m) (hd : 0 < dist2 p q) :
    numSegments p q m = ceilSqrt (dist2 p q / m ^ 2) := by
  unfold numSegments
  have : 1 ≤ ceilSqrt (dist2 p q / m ^ 2) := by
    apply one_le_ceilSqrt
    positivity
  omega

theorem dist2_le_numSegments_sq (p q : Point) (m : ℚ) (hm : 0 < m) :
    dist2 p q ≤ ((numSegments p q m : ℕ) : ℚ) ^ 2 * m ^ 2 := by
  have hsq : (0 : ℚ) < m ^ 2 := by positivity
  have h1 : dist2 p q / m ^ 2 ≤ ((ceilSqrt (dist2 p q / m ^ 2) : ℕ) : ℚ) ^ 2 :=
    le_sq_ceilSqrt _
  have h2n : ceilSqrt (dist2 p q / m ^ 2) ≤ numSegments p q m :=
    le_max_right 1 _
  have h2 : ((ceilSqrt (dist2 p q / m ^ 2) : ℕ) : ℚ) ≤ ((numSegments p q m : ℕ) : ℚ) := by
    exact_mod_cast h2n
  have h0 : (0 : ℚ) ≤ (ceilSqrt (dist2 p q / m ^ 2) : ℚ) := by positivity
  have h3 : ((ceilSqrt (dist2 p q / m ^ 2) : ℕ) : ℚ) ^ 2 ≤ ((numSegments p q m : ℕ) : ℚ) ^ 2 := by
    nlinarith
  have := le_trans h1 h3
  calc dist2 p q = dist2 p q / m ^ 2 * m ^ 2 := by field_simp
    _ ≤ ((numSegments p q m : ℕ) : ℚ) ^ 2 * m ^ 2 := by
        apply mul_le_mul_of_nonneg_right this (le_of_lt hsq)

theorem numSegments_eq_one (p q : Point) (m : ℚ) (hm : 0 < m) (h : dist2 p q ≤ m ^ 2) :
    numSegments p q m = 1 := by
  have hsq : (0 : ℚ) < m ^ 2 := by positivity
  have h1 : dist2 p q / m ^ 2 ≤ ((1 : ℕ) : ℚ) ^ 2 := by
    rw [div_le_iff₀ hsq]
    push_cast
    linarith
  have := ceilSqrt_le _ 1 h1
  unfold numSegments
  omega

theorem chord_zero (p q : Point) (n : ℕ) : chord p q n 0 = p := by
  unfold chord
  simp

theorem chord_self (p q : Point) (n : ℕ) (hn : n ≠ 0) : chord p q n n = q := by
  unfold chord
  have : ((n : ℚ)) ≠ 0 := by exact_mod_cast hn
  field_simp

theorem dist2_chord_succ (p q : Point) (n : ℕ) (hn : n ≠ 0) (j : ℕ) :
    dist2 (chord p q n j) (chord p q n (j + 1)) = dist2 p q / ((n : ℕ) : ℚ) ^ 2 := by
  have hne : ((n : ℚ)) ≠ 0 := by exact_mod_cast hn
  unfold dist2 chord
  push_cast
  field_simp
  ring

theorem segmentPoints_def (p q : Point) (m : ℚ) :
    segmentPoints p q m =
      ((List.range (numSegments p q m - 1)).map fun j =>
        chord p q (numSegments p q m) (j + 1)) ++ [q] := rfl

theorem cons_map_chord (p q : Point) (n : ℕ) (hn : 1 ≤ n) :
    p :: (((List.range (n - 1)).map fun j => chord p q n (j + 1)) ++ [q]) =
      (List.range (n + 1)).map (chord p q n) := by
  obtain ⟨k, rfl⟩ : ∃ k, n = k + 1 := ⟨n - 1, by omega⟩
  rw [List.range_succ, List.map_append, List.range_succ_eq_map, List.map_cons, chord_zero,
    List.map_map]
  simp only [Nat.add_sub_cancel, List.map_cons, List.map_nil, List.cons_append,
    List.nil_append]
  rw [chord_self p q (k + 1) (by omega)]
  rfl

theorem cons_segmentPoints_eq_map (p q : Point) (m : ℚ) :
    p :: segmentPoints p q m =
      (List.range (numSegments p q m + 1)).map (chord p q (numSegments p q m)) := by
  rw [segmentPoints_def]
  exact cons_map_chord p q _ (one_le_numSegments p q m)

theorem chain'_cons_segmentPoints (p q : Point) (m : ℚ) (hm : 0 < m) :
    List.Chain' (fun a b => dist2 a b ≤ m ^ 2) (p :: segmentPoints p q m) := by
  rw [cons_segmentPoints_eq_map, List.chain'_map, List.chain'_range_succ]
  intro j hj
  have hn1 : 1 ≤ numSegments p q m := one_le_numSegments p q m
  rw [dist2_chord_succ p q _ (by omega)]
  have hd := dist2_le_numSegments_sq p q m hm
  have hc1 : (1 : ℚ) ≤ ((numSegments p q m : ℕ) : ℚ) := by exact_mod_cast hn1
  have hnpos : (0 : ℚ) < ((numSegments p q m : ℕ) : ℚ) ^ 2 := by positivity
  rw [div_le_iff₀ hnpos]
  linarith

theorem getLast?_cons_segmentPoints (p q : Point) (m : ℚ) :
    (p :: segmentPoints p q m).getLast? = some q := by
  rw [segmentPoints_def, ← List.cons_append, List.getLast?_concat]

theorem chain'_cons_segTail (m : ℚ) (hm : 0 < m) :
    ∀ (rest : List Point) (p : Point),
      List.Chain' (fun a b => dist2 a b ≤ m ^ 2) (p :: segTail m p rest) := by
  intro rest
  induction rest with
  | nil => intro p; simp [segTail]
  | cons q rest ih =>
    intro p
    rw [segTail, show p :: (segmentPoints p q m ++ segTail m q rest) =
      (p :: segmentPoints p q m) ++ segTail m q rest from rfl, List.chain'_append]
    refine ⟨chain'_cons_segmentPoints p q m hm, (List.chain'_cons'.mp (ih q)).2, ?_⟩
    intro x hx y hy
    rw [getLast?_cons_segmentPoints] at hx
    simp only [Option.mem_def, Option.some.injEq] at hx
    subst hx
    exact (List.chain'_cons'.mp (ih q)).1 y hy

theorem segmentize_chain' (ps : List Point) (m : ℚ) (hm : 0 < m) :
    List.Chain' (fun a b => dist2 a b ≤ m ^ 2) (segmentize ps m) := by
  match ps with
  | [] => simp [segmentize]
  | p :: rest => exact chain'_cons_segTail m hm rest p

theorem sublist_cons_segTail (m : ℚ) :
    ∀ (rest : List Point) (p : Point), (p :: rest).Sublist (p :: segTail m p rest) := by
  intro rest
  induction rest with
  | nil => intro p; simp [segTail]
  | cons q rest ih =>
    intro p
    rw [segTail]
    apply List.Sublist.cons₂
    rw [segmentPoints_def, List.append_assoc, List.singleton_append]
    exact (ih q).trans (List.sublist_append_right _ _)

theorem sublist_segmentize (ps : List Point) (m : ℚ) : ps.Sublist (segmentize ps m) := by
  match ps with
  | [] => simp [segmentize]
  | p :: rest => exact sublist_cons_segTail m rest p

theorem segTail_eq_of_chain' (m : ℚ) (hm : 0 < m) :
    ∀ (rest : List Point) (p : Point),
      List.Chain' (fun a b => dist2 a b ≤ m ^ 2) (p :: rest) → segTail m p rest = rest := by
  intro rest
  induction rest with
  | nil => intro p _; rfl
  | cons q rest ih =>
    intro p h
    rw [List.chain'_cons] at h
    rw [segTail, segmentPoints_def, numSegments_eq_one p q m hm h.1]
    simp [ih q h.2]

theorem segmentize_eq_of_chain' (ps : List Point) (m : ℚ) (hm : 0 < m)
    (h : List.Chain' (fun a b => dist2 a b ≤ m ^ 2) ps) : segmentize ps m = ps := by
  match ps with
  | [] => rfl
  | p :: rest =>
    rw [segmentize, segTail_eq_of_chain' m hm rest p h]

theorem numSegments_min (p q : Point) (m : ℚ) (hm : 0 < m) (hd : 0 < dist2 p q) :
    (((numSegments p q m : ℕ) : ℚ) - 1) ^ 2 * m ^ 2 < dist2 p q := by
  have hsq : (0 : ℚ) < m ^ 2 := by positivity
  have hk := numSegments_pos_eq p q m hm hd
  have hn1 : 1 ≤ numSegments p q m := one_le_numSegments p q m
  by_contra hcon
  push_neg at hcon
  have hdm : dist2 p q / m ^ 2 ≤ ((numSegments p q m - 1 : ℕ) : ℚ) ^ 2 := by
    rw [div_le_iff₀ hsq, Nat.cast_sub hn1, Nat.cast_one]
    linarith
  have := ceilSqrt_le _ _ hdm
  omega

theorem segmentize_pair (p q : Point) (m : ℚ) :
    segmentize [p, q] m =
      (List.range (numSegments p q m + 1)).map (chord p q (numSegments p q m)) := by
  rw [segmentize, segTail, segTail, List.append_nil]
  exact cons_segmentPoints_eq_map p q m

theorem dropLast_cons_concat {α : Type} (a b : α) (l : List α) :
    (a :: (l ++ [b])).dropLast = a :: l := by
  rw [← List.cons_append, List.dropLast_concat]

theorem segmentize_decomp (p q : Point) (rest : List Point) (m : ℚ) :
    segmentize (p :: q :: rest) m =
      (segmentize [p, q] m).dropLast ++ segmentize (q :: rest) m := by
  rw [segmentize, segmentize, segmentize, segTail, segTail, segTail, List.append_nil,
    segmentPoints_def, dropLast_cons_concat]
  simp [List.append_assoc]

/-! ## Properties of the cell mapper -/

theorem mem_h3Accumulate {Cell : Type} (lib : H3Lib Cell) (coordinates : List Coordinate)
    (resolution : ℤ) (c : Coordinate) (hc : c ∈ coordinates) :
    lib.latlng_to_cell (c.getD 1 0) (c.getD 0 0) resolution ∈
      h3Accumulate lib coordinates resolution := by
  rw [h3Accumulate, List.mem_flatMap]
  exact ⟨c, hc, List.mem_cons_self _ _⟩

theorem length_h3Accumulate_le {Cell : Type} (lib : H3Lib Cell)
    (coordinates : List Coordinate) (resolution : ℤ)
    (hring : ∀ cell, (lib.grid_ring cell 1).length ≤ 6) :
    (h3Accumulate lib coordinates resolution).length ≤ 7 * coordinates.length := by
  induction coordinates with
  | nil => simp [h3Accumulate]
  | cons c cs ih =>
    simp only [h3Accumulate, List.flatMap_cons, List.length_append, List.length_cons] at ih ⊢
    have := hring (lib.latlng_to_cell (c.getD 1 0) (c.getD 0 0) resolution)
    omega

theorem mem_coordinates_to_h3_hexagons {Cell : Type} [DecidableEq Cell] (lib : H3Lib Cell)
    (coordinates : List Coordinate) (resolution : ℤ) (cell : Cell) :
    cell ∈ coordinates_to_h3_hexagons lib coordinates resolution ↔
      cell ∈ h3Accumulate lib coordinates resolution := by
  rw [coordinates_to_h3_hexagons, List.mem_dedup]

/-! ## Properties of the per-feature segmentization loop -/

theorem getGeom_setGeomCoords_ne (st : Store) (r r' : ℕ) (cs : List Coordinate)
    (h : r' ≠ r) : getGeom (setGeomCoords st r cs) r' = getGeom st r' := by
  unfold getGeom setGeomCoords
  rw [List.getD_eq_getElem?_getD, List.getD_eq_getElem?_getD,
    List.getElem?_set_ne (by omega)]

theorem geomType_eq (g : Geometry) : g.type = FeatureGeometryType.LineString := by
  cases h : g.type
  rfl

theorem segFeatures_cons_one (st : Store) (f0 : Feature) (fs : List Feature)
    (h0 : (getGeom st f0.geomRef).coordinates.length = 1) :
    segFeatures st (f0 :: fs) = .error .invalidGeometry := by
  rw [segFeatures, if_pos (geomType_eq _), mkLineString, if_pos (by simpa using h0)]

theorem segFeatures_cons_ok (st : Store) (f0 : Feature) (fs : List Feature)
    (h0 : (getGeom st f0.geomRef).coordinates.length ≠ 1) :
    segFeatures st (f0 :: fs) =
      segFeatures (setGeomCoords st f0.geomRef
        ((segmentize ((getGeom st f0.geomRef).coordinates.map toPoint)
          (1 / 1000)).map ofPoint)) fs := by
  rw [segFeatures, if_pos (geomType_eq _), mkLineString, if_neg (by simpa using h0)]
  show (match segmentize_linestring ⟨(getGeom st f0.geomRef).coordinates.map toPoint⟩
      (1 / 1000) with
    | .error e => Except.error e
    | .ok newCoords => segFeatures (setGeomCoords st f0.geomRef newCoords) fs) = _
  rw [segmentize_linestring, if_neg (by norm_num : ¬ ((1 : ℚ) / 1000 ≤ 0))]

theorem segFeatures_error_of_one_point :
    ∀ (fs : List Feature) (st : Store),
      (∃ f ∈ fs, (getGeom st f.geomRef).coordinates.length = 1) →
      ∃ e, segFeatures st fs = .error e := by
  intro fs
  induction fs with
  | nil =>
    rintro st ⟨f, hf, _⟩
    exact absurd hf (List.not_mem_nil f)
  | cons f0 fs ih =>
    rintro st ⟨f, hf, hlen⟩
    by_cases h0 : (getGeom st f0.geomRef).coordinates.length = 1
    · exact ⟨Err.invalidGeometry, segFeatures_cons_one st f0 fs h0⟩
    · rcases List.mem_cons.mp hf with rfl | hf'
      · exact absurd hlen h0
      · rw [segFeatures_cons_ok st f0 fs h0]
        apply ih
        refine ⟨f, hf', ?_⟩
        by_cases heq : f.geomRef = f0.geomRef
        · rw [heq] at hlen
          exact absurd hlen h0
        · rw [getGeom_setGeomCoords_ne st _ _ _ heq]
          exact hlen

/-! ## Concrete evaluations on the spec §8 example -/

theorem numSegments_example :
    numSegments ((0 : ℚ), (0 : ℚ)) ((3 : ℚ) / 1000, 0) (1 / 1000) = 3 := by
  rw [numSegments,
    show dist2 ((0 : ℚ), (0 : ℚ)) ((3 : ℚ) / 1000, 0) / ((1 : ℚ) / 1000) ^ 2 = 9 by
      rw [dist2]; norm_num,
    ceilSqrt_eq_succ 9 2 (by norm_num) (by norm_num)]
  rfl

theorem segmentize_example :
    segmentize [((0 : ℚ), (0 : ℚ)), ((3 : ℚ) / 1000, 0)] (1 / 1000) =
      [(0, 0), (1 / 1000, 0), (2 / 1000, 0), (3 / 1000, 0)] := by
  rw [segmentize, segTail, segTail, List.append_nil, segmentPoints_def,
    numSegments_example, show (3 : ℕ) - 1 = 2 from rfl,
    show List.range 2 = [0, 1] from rfl]
  simp only [List.map_cons, List.map_nil, chord, List.cons_append, List.nil_append,
    List.cons.injEq, Prod.mk.injEq]
  norm_num

theorem segFeatures_example :
    segFeatures exampleStore [exampleFeature] = .ok segStore := by
  rw [segFeatures_cons_ok _ _ _ (by decide),
    show (getGeom exampleStore exampleFeature.geomRef).coordinates.map toPoint =
      [((0 : ℚ), (0 : ℚ)), ((3 : ℚ) / 1000, 0)] from rfl,
    segmentize_example, segFeatures]
  rfl

theorem segmentize_geojson_data_example :
    segmentize_geojson_data exampleStore exampleData = .ok (segStore, exampleData) := by
  rw [segmentize_geojson_data, show exampleData.features = [exampleFeature] from rfl,
    segFeatures_example]
  rfl

theorem segmentize_geojson_data_one_point :
    segmentize_geojson_data onePointStore onePointData = .error Err.invalidGeometry := by
  rw [segmentize_geojson_data, show onePointData.features = [exampleFeature] from rfl,
    segFeatures_cons_one _ _ _ (by decide)]
  rfl

/-! ## The claims -/

/-- C1: for every line geometry with at least 2 points and every
`max_segment_length > 0`, the resampled output has every pair of
consecutive points at most `max_segment_length` apart (stated via squared
distances, equivalent for a nonnegative bound), the original vertices
form a subsequence of the output in order, and each original segment is
subdivided into `⌈L / max_segment_length⌉` equal sub-segments: on a
single segment the output is exactly the equally spaced `chord` sequence,
the full output decomposes segment by segment, and the sub-segment count
`n` satisfies `L² ≤ n²·m²` and `(n-1)²·m² < L²` — i.e. `n = ⌈L / m⌉`. -/
theorem claim_C1 (ps : List Point) (max_segment_length : ℚ)
    (_hlen : 2 ≤ ps.length) (hm : 0 < max_segment_length) :
    List.Chain' (fun a b => dist2 a b ≤ max_segment_length ^ 2)
      (segmentize ps max_segment_length) ∧
    ps.Sublist (segmentize ps max_segment_length) ∧
    (∀ p q : Point,
      segmentize [p, q] max_segment_length =
        (List.range (numSegments p q max_segment_length + 1)).map
          (chord p q (numSegments p q max_segment_length)) ∧
      (∀ rest : List Point,
        segmentize (p :: q :: rest) max_segment_length =
          (segmentize [p, q] max_segment_length).dropLast ++
            segmentize (q :: rest) max_segment_length) ∧
      (0 < dist2 p q →
        dist2 p q ≤ ((numSegments p q max_segment_length : ℕ) : ℚ) ^ 2 *
            max_segment_length ^ 2 ∧
        (((numSegments p q max_segment_length : ℕ) : ℚ) - 1) ^ 2 *
            max_segment_length ^ 2 < dist2 p q)) :=
  ⟨segmentize_chain' ps _ hm, sublist_segmentize ps _,
   fun p q => ⟨segmentize_pair p q _,
     fun rest => segmentize_decomp p q rest _,
     fun hd => ⟨dist2_le_numSegments_sq p q _ hm, numSegments_min p q _ hm hd⟩⟩⟩

/-- Witness for C1 at the spec §8 example line and the default bound. -/
theorem claim_C1_witness :
    2 ≤ ([((0 : ℚ), (0 : ℚ)), ((3 : ℚ) / 1000, 0)] : List Point).length ∧
    0 < ((1 : ℚ) / 1000) ∧
    List.Chain' (fun a b => dist2 a b ≤ ((1 : ℚ) / 1000) ^ 2)
      (segmentize [((0 : ℚ), (0 : ℚ)), ((3 : ℚ) / 1000, 0)] (1 / 1000)) :=
  ⟨by decide, by norm_num,
   (claim_C1 [((0 : ℚ), (0 : ℚ)), ((3 : ℚ) / 1000, 0)] (1 / 1000)
     (by decide) (by norm_num)).1⟩

/-- C2 fails on the code (code bug): `data.model_copy()` is pydantic's
SHALLOW copy, so the per-feature loop rebinds the coordinate list of
`Geometry` objects shared with the input collection.  At the spec §8
example input the call succeeds, but afterwards the ORIGINAL collection,
viewed through the updated store, shows the 4-point segmentized
coordinates instead of its original 2 points. -/
theorem claim_C2 :
    segmentize_geojson_data exampleStore exampleData = .ok (segStore, exampleData) ∧
    viewCoords segStore exampleData ≠ viewCoords exampleStore exampleData ∧
    viewCoords segStore exampleData =
      [[[0, 0], [1 / 1000, 0], [2 / 1000, 0], [3 / 1000, 0]]] ∧
    viewCoords exampleStore exampleData = [[[0, 0], [3 / 1000, 0]]] := by
  refine ⟨segmentize_geojson_data_example, ?_, rfl, rfl⟩
  intro h
  rw [show viewCoords segStore exampleData =
        [[[0, 0], [1 / 1000, 0], [2 / 1000, 0], [3 / 1000, 0]]] from rfl,
    show viewCoords exampleStore exampleData = [[[0, 0], [3 / 1000, 0]]] from rfl] at h
  injection h with h1 h2
  exact absurd (congrArg List.length h1) (by decide)

/-- C3 fails on the code (code bug): pydantic's `Field` has no `min` /
`max` parameters, so the declared `[0, 180]` bound on `Coordinate` is
inert metadata and construction succeeds for ANY two floats.
`Coordinate(root=[-200, 500])` validates although both components are
out of the declared bound; the spec-side constructor rejects it. -/
theorem claim_C3 :
    mkCoordinate [(-200 : ℚ), 500] = .ok [(-200 : ℚ), 500] ∧
    mkCoordinateSpec [(-200 : ℚ), 500] = .error Err.validationError ∧
    ¬ ((0 : ℚ) ≤ -200 ∧ (-200 : ℚ) ≤ 180) := by
  refine ⟨rfl, ?_, by norm_num⟩
  rw [mkCoordinateSpec, if_neg]
  rintro ⟨-, hall⟩
  have h := hall (-200) (List.mem_cons_self _ _)
  norm_num at h

/-- C4: for every coordinate in the input and every valid resolution, the
coordinate's containing cell is a member of any list the cell mapper can
return. -/
theorem claim_C4 {Cell : Type} [DecidableEq Cell] (lib : H3Lib Cell)
    (coordinates : List Coordinate) (resolution : ℤ) (out : List Cell)
    (_hres : 0 ≤ resolution ∧ resolution ≤ 15)
    (hrun : IsH3Run lib coordinates resolution out)
    (c : Coordinate) (hc : c ∈ coordinates) :
    lib.latlng_to_cell (c.getD 1 0) (c.getD 0 0) resolution ∈ out := by
  rw [IsH3Run] at hrun
  rw [hrun.mem_iff, mem_coordinates_to_h3_hexagons]
  exact mem_h3Accumulate lib coordinates resolution c hc

/-- Witness for C4 with a concrete h3 implementation over `ℕ`. -/
theorem claim_C4_witness :
    ((0 : ℤ) ≤ 8 ∧ (8 : ℤ) ≤ 15) ∧
    IsH3Run natH3 [[0, 0]] 8 (coordinates_to_h3_hexagons natH3 [[0, 0]] 8) ∧
    natH3.latlng_to_cell 0 0 8 ∈ coordinates_to_h3_hexagons natH3 [[0, 0]] 8 :=
  ⟨⟨by decide, by decide⟩, List.Perm.refl _,
   claim_C4 natH3 [[0, 0]] 8 _ ⟨by decide, by decide⟩ (List.Perm.refl _) [0, 0]
     (List.mem_cons_self _ _)⟩

/-- C5: any list the cell mapper can return has no duplicate cell and has
length at most `7 ×` the number of input coordinates, provided each
1-ring of the underlying library has at most 6 cells (the h3 contract). -/
theorem claim_C5 {Cell : Type} [DecidableEq Cell] (lib : H3Lib Cell)
    (coordinates : List Coordinate) (resolution : ℤ) (out : List Cell)
    (_hres : 0 ≤ resolution ∧ resolution ≤ 15)
    (hring : ∀ cell, (lib.grid_ring cell 1).length ≤ 6)
    (hrun : IsH3Run lib coordinates resolution out) :
    out.Nodup ∧ out.length ≤ 7 * coordinates.length := by
  rw [IsH3Run] at hrun
  constructor
  · exact hrun.nodup_iff.mpr (List.nodup_dedup _)
  · rw [hrun.length_eq]
    calc (coordinates_to_h3_hexagons lib coordinates resolution).length
        ≤ (h3Accumulate lib coordinates resolution).length :=
          (List.dedup_sublist _).length_le
      _ ≤ 7 * coordinates.length :=
          length_h3Accumulate_le lib coordinates resolution hring

/-- Witness for C5 with a concrete h3 implementation over `ℕ`. -/
theorem claim_C5_witness :
    (∀ cell : ℕ, (natH3.grid_ring cell 1).length ≤ 6) ∧
    (coordinates_to_h3_hexagons natH3 [[0, 0]] 8).Nodup ∧
    (coordinates_to_h3_hexagons natH3 [[0, 0]] 8).length ≤
      7 * ([[0, 0]] : List Coordinate).length :=
  ⟨fun _ => by norm_num [natH3],
   claim_C5 natH3 [[0, 0]] 8 _ ⟨by decide, by decide⟩ (fun _ => by norm_num [natH3])
     (List.Perm.refl _)⟩

/-- C6: an invalid configuration — resolution outside 0–15 or an empty
file path — makes `InputParams` validation fail, so the pipeline aborts
with NO file I/O event; and (per §4.1, the segmentizer contract) a
non-positive `max_segment_length` is rejected with an InvalidArgument
condition by `segmentize_linestring`, which itself performs no file I/O.
Note `max_segment_length` is not a field of `InputParams`: it is not part
of the configuration surface, so no configuration can carry a
non-positive value. -/
theorem claim_C6 {Cell : Type} [DecidableEq Cell] (lib : H3Lib Cell)
    (raw : InputParams) (st : Store) (data : GeoJsonModel)
    (hbad : raw.h3_resolution < 0 ∨ 15 < raw.h3_resolution ∨
      raw.shapefile_filepath.length = 0 ∨
      raw.output_filepath_geojson.length = 0 ∨
      raw.output_filepath_geojson_segmentized.length = 0 ∨
      raw.output_filepath_h3_hexagons.length = 0) :
    runPipeline lib raw st data = .error (Err.validationError, []) ∧
    ∀ (linestring : LineString) (max_segment_length : ℚ),
      max_segment_length ≤ 0 →
      segmentize_linestring linestring max_segment_length =
        .error Err.invalidArgument := by
  constructor
  · have hnot : ¬ (1 ≤ raw.shapefile_filepath.length ∧
        1 ≤ raw.output_filepath_geojson.length ∧
        1 ≤ raw.output_filepath_geojson_segmentized.length ∧
        1 ≤ raw.output_filepath_h3_hexagons.length ∧
        0 ≤ raw.h3_resolution ∧ raw.h3_resolution ≤ 15) := by
      rintro ⟨h1, h2, h3, h4, h5, h6⟩
      rcases hbad with h | h | h | h | h | h <;> omega
    rw [runPipeline, mkInputParams, if_neg hnot]
  · intro linestring max_segment_length hmsl
    rw [segmentize_linestring, if_pos hmsl]

/-- Witness for C6: the `main.py` parameters with resolution 99 are
rejected with no I/O, and a negative segment length is rejected. -/
theorem claim_C6_witness :
    (15 : ℤ) < badParams.h3_resolution ∧
    runPipeline natH3 badParams [] emptyData = .error (Err.validationError, []) ∧
    segmentize_linestring ⟨[]⟩ (-1) = .error Err.invalidArgument :=
  ⟨by decide,
   (claim_C6 natH3 badParams [] emptyData (Or.inr (Or.inl (by decide)))).1,
   (claim_C6 natH3 badParams [] emptyData
     (Or.inr (Or.inl (by decide)))).2 ⟨[]⟩ (-1) (by norm_num)⟩

/-- C7 counterexample: at a concrete one-point line geometry the code
does NOT return the input unchanged — the shapely `LineString`
constructor rejects a single point, so `segmentize_geojson_data` fails
instead of passing the collection through. -/
theorem claim_C7_counterexample :
    segmentize_geojson_data onePointStore onePointData = .error Err.invalidGeometry ∧
    segmentize_geojson_data onePointStore onePointData ≠
      .ok (onePointStore, onePointData) := by
  refine ⟨segmentize_geojson_data_one_point, ?_⟩
  rw [segmentize_geojson_data_one_point]
  exact fun h => Except.noConfusion h

/-- C7 as amended: a collection containing a 1-point line geometry makes
segmentization FAIL (the `LineString` constructor raises), rather than
pass the input through unchanged. -/
theorem claim_C7 (st : Store) (data : GeoJsonModel)
    (h : ∃ f ∈ data.features, (getGeom st f.geomRef).coordinates.length = 1) :
    ∃ e, segmentize_geojson_data st data = .error e := by
  obtain ⟨e, he⟩ := segFeatures_error_of_one_point data.features st h
  exact ⟨e, by rw [segmentize_geojson_data, he]; rfl⟩

/-- Witness for the amended C7 at the concrete one-point collection. -/
theorem claim_C7_witness :
    (∃ f ∈ onePointData.features,
      (getGeom onePointStore f.geomRef).coordinates.length = 1) ∧
    ∃ e, segmentize_geojson_data onePointStore onePointData = .error e :=
  ⟨⟨exampleFeature, List.mem_cons_self _ _, rfl⟩,
   claim_C7 onePointStore onePointData
     ⟨exampleFeature, List.mem_cons_self _ _, rfl⟩⟩

/-- C8: resampling is idempotent — resampling an already-resampled line
with the same positive `max_segment_length` returns it unchanged. -/
theorem claim_C8 (ps : List Point) (max_segment_length : ℚ)
    (hm : 0 < max_segment_length) :
    segmentize (segmentize ps max_segment_length) max_segment_length =
      segmentize ps max_segment_length :=
  segmentize_eq_of_chain' _ _ hm (segmentize_chain' ps _ hm)

/-- Witness for C8 at the spec §8 example line. -/
theorem claim_C8_witness :
    0 < ((1 : ℚ) / 1000) ∧
    segmentize (segmentize [((0 : ℚ), (0 : ℚ)), ((3 : ℚ) / 1000, 0)] (1 / 1000))
        (1 / 1000) =
      segmentize [((0 : ℚ), (0 : ℚ)), ((3 : ℚ) / 1000, 0)] (1 / 1000) :=
  ⟨by norm_num, claim_C8 [((0 : ℚ), (0 : ℚ)), ((3 : ℚ) / 1000, 0)] (1 / 1000)
    (by norm_num)⟩

/-- C9: the cell mapper is deterministic in set membership — any two
lists the Python code can return for identical inputs are equal as
sets. -/
theorem claim_C9 {Cell : Type} [DecidableEq Cell] (lib : H3Lib Cell)
    (coordinates : List Coordinate) (resolution : ℤ) (out1 out2 : List Cell)
    (h1 : IsH3Run lib coordinates resolution out1)
    (h2 : IsH3Run lib coordinates resolution out2) :
    out1.toFinset = out2.toFinset := by
  rw [IsH3Run] at h1 h2
  ext a
  simp only [List.mem_toFinset]
  rw [h1.mem_iff]
  exact h2.mem_iff.symm

/-- Witness for C9: two order-variants of the same run agree as sets. -/
theorem claim_C9_witness :
    IsH3Run natH3 [[0, 0]] 8 [0, 1] ∧ IsH3Run natH3 [[0, 0]] 8 [1, 0] ∧
    ([0, 1] : List ℕ).toFinset = ([1, 0] : List ℕ).toFinset := by
  have heval : coordinates_to_h3_hexagons natH3 [[0, 0]] 8 = [0, 1] := rfl
  have hp1 : IsH3Run natH3 [[0, 0]] 8 [0, 1] := by
    rw [IsH3Run, heval]
  have hp2 : IsH3Run natH3 [[0, 0]] 8 [1, 0] := by
    rw [IsH3Run, heval]
    exact List.Perm.swap 0 1 []
  exact ⟨hp1, hp2, claim_C9 natH3 [[0, 0]] 8 [0, 1] [1, 0] hp1 hp2⟩

/-- C10: whenever the constructor completes, its `coordinates` field
equals the extraction of the originally ingested collection at the
ORIGINAL store, and the raw GeoJSON file holds the pre-segmentation
view — extraction and the raw write happen before
`segmentize_geojson_data` mutates the shared geometries. -/
theorem claim_C10 {Cell : Type} [DecidableEq Cell] (lib : H3Lib Cell)
    (input_params : InputParams) (st : Store) (data : GeoJsonModel)
    (evs : List Event) (res : InitOutcome Cell)
    (h : converterInit lib input_params st data = .ok (evs, res)) :
    res.coordinates = extract_coordinates st data ∧
    res.raw_geojson_file = viewCoords st data := by
  rw [converterInit] at h
  rcases hseg : segmentize_geojson_data st data with e | pr
  · rw [hseg] at h
    exact Except.noConfusion h
  · obtain ⟨st', dcopy⟩ := pr
    rw [hseg] at h
    simp only [Except.ok.injEq, Prod.mk.injEq] at h
    obtain ⟨-, hres⟩ := h
    rw [← hres]
    exact ⟨rfl, rfl⟩

/-- Witness for C10 on the empty collection. -/
theorem claim_C10_witness :
    converterInit natH3 exampleParams [] emptyData =
      .ok ([Event.readFile "data_in/National Highways.shp",
            Event.writeFile "data_out/highways.geojson",
            Event.writeFile "data_out/highways_segmentized.geojson"],
           ⟨[], [], [], [], [], []⟩) ∧
    (⟨[], [], [], [], [], []⟩ : InitOutcome ℕ).coordinates =
      extract_coordinates [] emptyData ∧
    (⟨[], [], [], [], [], []⟩ : InitOutcome ℕ).raw_geojson_file =
      viewCoords [] emptyData := by
  have h : converterInit natH3 exampleParams [] emptyData =
      .ok ([Event.readFile "data_in/National Highways.shp",
            Event.writeFile "data_out/highways.geojson",
            Event.writeFile "data_out/highways_segmentized.geojson"],
           ⟨[], [], [], [], [], []⟩) := rfl
  exact ⟨h, claim_C10 natH3 exampleParams [] emptyData _ _ h⟩
